import Mathlib

/-!
Verification of the OpenSBI patch repository: the image-header stamping
pipeline driven by build.sh, the key-generation script, and the AX65
platform override.  The header-stamping tool itself
(tool/patch_image_header.py) is not part of the available sources, so it
is modelled from the specification; build.sh, the AX65 override C file,
the andes objects.mk fragment and tool/key/generate_key.sh are embedded
from the sources.
-/

/-! ## Scalar arithmetic over the secp256k1 group order -/

/-- Order of the secp256k1 base-point group (a standard curve constant,
named by the spec as the signing curve). -/
def secpN : Nat := 0xFFFFFFFFFFFFFFFFFFFFFFFFFFFFFFFEBAAEDCE6AF48A03BBFD25E8CD0364141

/-- Fuelled extended Euclid.  With fuel at least a, egcdF fuel a b
returns coefficients (x, y) with x * a + y * b = gcd a b. -/
def egcdF : Nat → Nat → Nat → Int × Int
  | 0, _, _ => (0, 1)
  | fuel + 1, a, b =>
    if a = 0 then (0, 1)
    else
      let p := egcdF fuel (b % a) a
      (p.2 - (b / a : Nat) * p.1, p.1)

/-- Modular inverse of a modulo n via extended Euclid; meaningful when
gcd a n = 1. -/
def modInv (a n : Nat) : Nat := (((egcdF a a n).1) % (n : Int)).toNat

/-- Scalars modulo the secp256k1 group order. -/
abbrev Scalar := ZMod secpN

/-- Inverse in the scalar field, computed by extended Euclid. -/
def sInvS (a : Scalar) : Scalar := (modInv a.val secpN : Nat)

/-! ## ECDSA, modelled from the spec

Modelled from the spec: the signing tool (tool/patch_image_header.py) is
absent from the sources; the spec pins only "ECDSA over the secp256k1
curve".  The cyclic group generated by the base point G (of prime order
secpN) is represented by its exponent group, the scalars modulo secpN:
a point n * G is represented by n, so scalar multiplication is ring
multiplication and the conversion of a point to the integer used in the
ECDSA equations is the identity.  The ECDSA signing and verification
equations themselves are the standard ones in the scalar field. -/

/-- Modelled from the spec: the public key corresponding to a private
scalar d is the point d * G, represented by its exponent d. -/
def derivePub (d : Scalar) : Scalar := d

/-- Modelled from the spec: ECDSA signing of digest z with private key d
and ephemeral nonce k, yielding (r, s) with r the point k * G converted
to a scalar and s = (z + r * d) / k. -/
def ecSign (d z k : Scalar) : Scalar × Scalar :=
  (k, sInvS k * (z + k * d))

/-- Modelled from the spec: ECDSA verification of signature (r, s) on
digest z against public key q: with w = 1 / s, the point
(z * w) * G + (r * w) * q must convert back to r. -/
def ecVerify (q z r s : Scalar) : Bool :=
  decide (z * sInvS s + r * sInvS s * q = r)

/-- Modelled from the spec: the digest of a byte sequence, folded
base 256 into the scalar field (the exact hash is not pinned by the
spec, which says only that the signature is over the deterministic
concatenation of the header fields and the payload). -/
def digestScalar (msg : List Nat) : Scalar :=
  msg.foldl (fun acc b => acc * 256 + (b : Scalar)) 0

/-! ## Byte-level encodings -/

/-- Little-endian encoding of v on exactly w bytes. -/
def toLE : Nat → Nat → List Nat
  | 0, _ => []
  | w + 1, v => (v % 256) :: toLE w (v / 256)

/-- Little-endian decoding of a byte list. -/
def fromLE : List Nat → Nat
  | [] => 0
  | b :: bs => b + 256 * fromLE bs

/-- Big-endian encoding of v on exactly w bytes. -/
def toBE (w v : Nat) : List Nat := (toLE w v).reverse

/-- Big-endian decoding of a byte list. -/
def fromBE (l : List Nat) : Nat := fromLE l.reverse

/-- Pad with zero bytes, or truncate, to exactly w bytes. -/
def padTrunc (w : Nat) (s : List Nat) : List Nat :=
  s.take w ++ List.replicate (w - s.length) 0

/-! ## Header stamper, modelled from the spec

Modelled from the spec: tool/patch_image_header.py is absent from the
sources.  The spec fixes the header contents (entrypoint, build
identifier padded or truncated to a fixed field width, payload length,
ECDSA signature over the other fields concatenated with the payload) and
that the header has a constant total byte length, but leaves exact field
order, widths and endianness open; this model pins entrypoint as 8
bytes little-endian, identifier as a 32-byte zero-padded field, payload
length as 8 bytes little-endian, and the signature as r and s on 32
big-endian bytes each, for a 112-byte header. -/

/-- Width in bytes of the entrypoint field. -/
def ENTRY_WIDTH : Nat := 8

/-- Width in bytes of the build-identifier field. -/
def ID_WIDTH : Nat := 32

/-- Width in bytes of the payload-length field. -/
def LEN_WIDTH : Nat := 8

/-- Width in bytes of the signature field. -/
def SIG_WIDTH : Nat := 64

/-- Total header length H: a constant, independent of the payload. -/
def HEADER_LEN : Nat := 112

/-- Modelled from the spec: the non-signature header fields, in order
entrypoint, build identifier, payload length. -/
def fieldsBytes (entry : Nat) (sha : List Nat) (payloadLen : Nat) : List Nat :=
  toLE ENTRY_WIDTH entry ++ padTrunc ID_WIDTH sha ++ toLE LEN_WIDTH payloadLen

/-- Signature field bytes: r and s on 32 big-endian bytes each. -/
def sigBytes (rs : Scalar × Scalar) : List Nat :=
  toBE 32 rs.1.val ++ toBE 32 rs.2.val

/-- Modelled from the spec: the complete header for a payload, signed
with private key d and nonce k over the concatenation of the other
header fields and the payload. -/
def mkHeader (entry : Nat) (sha : List Nat) (payload : List Nat) (d k : Scalar) : List Nat :=
  let fb := fieldsBytes entry sha payload.length
  fb ++ sigBytes (ecSign d (digestScalar (fb ++ payload)) k)

/-- Error taxonomy of the stamper, from the spec. -/
inductive StampError where
  | InputNotFound
  | KeyLoadError
  | IOError
  | InvalidArgument
deriving DecidableEq, Repr

/-- Invocation of the stamper, with the filesystem abstracted: binary is
the content of the input path (none when the path does not exist), key
is the parsed private scalar (none when the key file cannot be parsed),
outputWritable says whether the output path is writable. -/
structure StamperArgs where
  binary : Option (List Nat)
  entrypoint : Nat
  gitSha : List Nat
  key : Option Scalar
  outputWritable : Bool

/-- Modelled from the spec: the stamper checks its inputs in the order
of the spec error taxonomy and on success produces
header bytes followed by the unchanged payload bytes.  The nonce k
models the entropy consumed by ECDSA signing. -/
def patch_image_header (a : StamperArgs) (k : Scalar) : Except StampError (List Nat) :=
  match a.binary with
  | none => .error .InputNotFound
  | some bin =>
    match a.key with
    | none => .error .KeyLoadError
    | some d =>
      if a.outputWritable then
        .ok (mkHeader a.entrypoint a.gitSha bin d k ++ bin)
      else
        .error .IOError

/-- Content of the output path after a run: the spec mandates that on
failure no partial file is left at the output path, so an error leaves
no file (none). -/
def run_stamper (a : StamperArgs) (k : Scalar) : Option (List Nat) :=
  match patch_image_header a k with
  | .ok out => some out
  | .error _ => none

/-- Process exit code of the stamper: 0 on success, nonzero on error. -/
def stamper_exit (a : StamperArgs) (k : Scalar) : Nat :=
  match patch_image_header a k with
  | .ok _ => 0
  | .error _ => 1

/-- Decoded entrypoint field of a stamped image. -/
def hdrEntry (img : List Nat) : Nat := fromLE (img.take ENTRY_WIDTH)

/-- Identifier field bytes of a stamped image. -/
def hdrId (img : List Nat) : List Nat := (img.drop ENTRY_WIDTH).take ID_WIDTH

/-- Decoded payload-length field of a stamped image. -/
def hdrLenField (img : List Nat) : Nat := fromLE ((img.drop 40).take LEN_WIDTH)

/-- Signature field bytes of a stamped image. -/
def hdrSig (img : List Nat) : List Nat := (img.drop 48).take SIG_WIDTH

/-- Payload bytes of a stamped image. -/
def hdrPayload (img : List Nat) : List Nat := img.drop HEADER_LEN

/-- Decoded (r, s) scalars of a stored signature field. -/
def sigScalars (sig : List Nat) : Scalar × Scalar :=
  ((fromBE (sig.take 32) : Nat), (fromBE (sig.drop 32) : Nat))

/-! ## Build script (src/build.sh) -/

/-- Environment of one run of build.sh: whether make succeeds, the
output of git rev-parse (none when it fails, e.g. outside a git
repository), the firmware binary content, the parsed key and output
writability seen by the stamper. -/
structure BuildEnv where
  makeOk : Bool
  gitShaOut : Option (List Nat)
  fwJumpBin : Option (List Nat)
  key : Option Scalar
  outputWritable : Bool

/-- Bytes of the literal string "unknown". -/
def unknownBytes : List Nat := [117, 110, 107, 110, 111, 119, 110]

/-- GIT_SHA as computed by build.sh: the git output, or the literal
"unknown" when git rev-parse fails. -/
def buildGitSha (env : BuildEnv) : List Nat := env.gitShaOut.getD unknownBytes

/-- Entrypoint passed by build.sh to the stamper. -/
def BUILD_ENTRYPOINT : Nat := 0x40000000

/-- FW_JUMP_ADDR configured for AX65 in platform/generic/andes/objects.mk. -/
def FW_JUMP_ADDR : Nat := 0x42000000

/-- Stamper invocation assembled by build.sh. -/
def buildStampArgs (env : BuildEnv) : StamperArgs :=
  { binary := env.fwJumpBin
    entrypoint := BUILD_ENTRYPOINT
    gitSha := buildGitSha env
    key := env.key
    outputWritable := env.outputWritable }

/-- Exit code and decisive echoed message of one run of build.sh: make,
then the GIT_SHA fallback, then the stamper, whose exit code is checked;
nonzero make or stamper exit makes the script print a failure message
and exit 1. -/
def build_sh (env : BuildEnv) (k : Scalar) : Nat × String :=
  if env.makeOk = false then (1, "Build failed!")
  else if stamper_exit (buildStampArgs env) k = 0 then
    (0, "Build completed successfully!")
  else
    (1, "Failed to generate fw_jump.img")

/-- Content of the output image path after a run of build.sh. -/
def build_output (env : BuildEnv) (k : Scalar) : Option (List Nat) :=
  if env.makeOk = false then none
  else run_stamper (buildStampArgs env) k

/-! ## Key generation (src/tool/key/generate_key.sh) -/

/-- Modelled from the spec: openssl (an external toolkit) DER-encodes
the secp256k1 public key as the standard SubjectPublicKeyInfo: a fixed
23-byte prefix, the uncompressed-point marker 4, then the two 32-byte
big-endian coordinates. -/
def derHeadBytes : List Nat :=
  [0x30, 0x56, 0x30, 0x10, 0x06, 0x07, 0x2A, 0x86, 0x48, 0xCE, 0x3D,
   0x02, 0x01, 0x06, 0x05, 0x2B, 0x81, 0x04, 0x00, 0x0A, 0x03, 0x42, 0x00]

/-- Modelled from the spec: DER encoding of an uncompressed secp256k1
public key with coordinates x and y (32 bytes each). -/
def derEncodePub (x y : List Nat) : List Nat :=
  derHeadBytes ++ [4] ++ x ++ y

/-- Extraction performed by generate_key.sh: dd bs=1 skip=24 count=64
takes 64 bytes after skipping a 24-byte prefix. -/
def dd_skip24_count64 (l : List Nat) : List Nat := (l.drop 24).take 64

/-- Curve name passed to openssl ecparam by generate_key.sh. -/
def generateKeyCurve : String := "secp256k1"

/-! ## AX65 platform override (the ax65 final-init source file) -/

/-- Machine state for the override: the machine-mode CSR file, as a map
from CSR address to value. -/
structure MachineState where
  csr : Nat → Nat

/-- CSR read, as in the source csr_read. -/
def csr_read (s : MachineState) (addr : Nat) : Nat := s.csr addr

/-- CSR write, as in the source csr_write. -/
def csr_write (s : MachineState) (addr v : Nat) : MachineState :=
  ⟨fun a => if a = addr then v else s.csr a⟩

/-- Address of the Andes machine-mode cache control CSR (value from the
Andes platform headers, immaterial to the claims). -/
def CSR_MCACHE_CTL : Nat := 0x7CA

/-- Single-bit mask for MCACHE_CTL.CCTL_SUEN (bit 8, value from the
Andes platform headers, immaterial to the claims beyond being the
CCTL_SUEN bit). -/
def MCACHE_CTL_CCTL_SUEN_MASK : Nat := 2 ^ 8

/-- Embedding of ax65_final_init: on cold boot, read MCACHE_CTL, set
CCTL_SUEN, write it back; then return generic_final_init cold_boot.
The external generic_final_init is abstracted as the pure result
function gfi. -/
def ax65_final_init (gfi : Bool → Int) (cold_boot : Bool) (s : MachineState) :
    MachineState × Int :=
  let s2 :=
    if cold_boot then
      let mcache_ctl := csr_read s CSR_MCACHE_CTL
      csr_write s CSR_MCACHE_CTL (mcache_ctl ||| MCACHE_CTL_CCTL_SUEN_MASK)
    else s
  (s2, gfi cold_boot)

/-! ## Supporting lemmas -/

instance : NeZero secpN := ⟨by decide⟩

theorem egcdF_spec : ∀ (fuel a b : Nat), a ≤ fuel →
    (egcdF fuel a b).1 * (a : Int) + (egcdF fuel a b).2 * (b : Int) = (Nat.gcd a b : Int) := by
  intro fuel
  induction fuel with
  | zero =>
    intro a b h
    have ha : a = 0 := Nat.le_zero.mp h
    subst ha
    simp [egcdF]
  | succ fuel ih =>
    intro a b h
    by_cases ha : a = 0
    · subst ha
      simp [egcdF]
    · have hlt : b % a < a := Nat.mod_lt _ (Nat.pos_of_ne_zero ha)
      have hle : b % a ≤ fuel := by omega
      have ihm := ih (b % a) a hle
      have hdm : (a : Int) * ((b / a : Nat) : Int) + ((b % a : Nat) : Int) = (b : Int) := by
        exact_mod_cast Nat.div_add_mod b a
      rw [Nat.gcd_rec a b]
      simp only [egcdF, ha, if_false]
      linear_combination ihm - (egcdF fuel (b % a) a).1 * hdm

theorem modInv_spec (a n : Nat) (hn : 1 < n) (h : Nat.gcd a n = 1) :
    (a * modInv a n) % n = 1 := by
  have hs := egcdF_spec a a n (Nat.le_refl a)
  rw [h] at hs
  have hn0 : (0 : Int) < (n : Int) := by exact_mod_cast Nat.lt_of_lt_of_le Nat.zero_lt_one hn.le
  have hmi : ((modInv a n : Nat) : Int) = (egcdF a a n).1 % (n : Int) := by
    unfold modInv
    exact Int.toNat_of_nonneg (Int.emod_nonneg _ (ne_of_gt hn0))
  have key : ((a : Int) * ((modInv a n : Nat) : Int)) % (n : Int) = 1 := by
    rw [hmi]
    have h1 : ((a : Int) * ((egcdF a a n).1 % (n : Int))) % (n : Int)
        = ((a : Int) * (egcdF a a n).1) % (n : Int) := by
      rw [Int.mul_emod ((a : Int)) ((egcdF a a n).1 % (n : Int)), Int.emod_emod_of_dvd,
        ← Int.mul_emod]
      exact dvd_refl _
    rw [h1]
    have h2 : (a : Int) * (egcdF a a n).1 = 1 + (n : Int) * (-(egcdF a a n).2) := by
      linear_combination hs
    rw [h2, Int.add_mul_emod_self_left]
    exact Int.emod_eq_of_lt (by norm_num) (by exact_mod_cast hn)
  have hcast : (((a * modInv a n) % n : Nat) : Int) = 1 := by
    push_cast
    exact key
  exact_mod_cast hcast

theorem sInvS_mul (a : Scalar) (h : Nat.gcd a.val secpN = 1) : a * sInvS a = 1 := by
  have hm := modInv_spec a.val secpN (by decide) h
  calc a * sInvS a
      = ((a.val * modInv a.val secpN : Nat) : Scalar) := by
        push_cast
        rw [ZMod.natCast_rightInverse a]
        rfl
    _ = (((a.val * modInv a.val secpN) % secpN : Nat) : Scalar) := (ZMod.natCast_mod _ _).symm
    _ = ((1 : Nat) : Scalar) := by rw [hm]
    _ = 1 := Nat.cast_one

theorem ecVerify_ecSign (d z k : Scalar)
    (hk : Nat.gcd k.val secpN = 1)
    (hs : Nat.gcd ((ecSign d z k).2).val secpN = 1) :
    ecVerify (derivePub d) z (ecSign d z k).1 (ecSign d z k).2 = true := by
  have h1 := sInvS_mul k hk
  have h2 := sInvS_mul _ hs
  unfold ecSign at h2 ⊢
  unfold ecVerify derivePub
  simp only [decide_eq_true_eq]
  linear_combination (-(z + k * d) * sInvS (sInvS k * (z + k * d))) * h1 + k * h2

theorem toLE_length (w : Nat) : ∀ v : Nat, (toLE w v).length = w := by
  induction w with
  | zero => intro v; rfl
  | succ w ih => intro v; simp [toLE, ih]

theorem padTrunc_length (w : Nat) (s : List Nat) : (padTrunc w s).length = w := by
  simp only [padTrunc, List.length_append, List.length_take, List.length_replicate]
  omega

theorem fieldsBytes_length (e : Nat) (sha : List Nat) (pl : Nat) :
    (fieldsBytes e sha pl).length = 48 := by
  simp [fieldsBytes, toLE_length, padTrunc_length, ENTRY_WIDTH, ID_WIDTH, LEN_WIDTH]

theorem toBE_length (w v : Nat) : (toBE w v).length = w := by
  simp [toBE, toLE_length]

theorem sigBytes_length (rs : Scalar × Scalar) : (sigBytes rs).length = 64 := by
  simp [sigBytes, toBE_length]

theorem mkHeader_length (e : Nat) (sha payload : List Nat) (d k : Scalar) :
    (mkHeader e sha payload d k).length = HEADER_LEN := by
  simp [mkHeader, fieldsBytes_length, sigBytes_length, HEADER_LEN]

theorem fromLE_toLE (w : Nat) : ∀ v : Nat, v < 256 ^ w → fromLE (toLE w v) = v := by
  induction w with
  | zero =>
    intro v h
    simp [Nat.pow_zero] at h
    simp [toLE, fromLE, h]
  | succ w ih =>
    intro v h
    have hdiv : v / 256 < 256 ^ w := by
      rw [Nat.div_lt_iff_lt_mul (by norm_num)]
      calc v < 256 ^ (w + 1) := h
        _ = 256 ^ w * 256 := by ring
    simp only [toLE, fromLE, ih (v / 256) hdiv]
    omega

theorem fromBE_toBE (w v : Nat) (h : v < 256 ^ w) : fromBE (toBE w v) = v := by
  simp [fromBE, toBE, List.reverse_reverse, fromLE_toLE w v h]

theorem stamped_decomp (e : Nat) (sha bin : List Nat) (d k : Scalar) :
    mkHeader e sha bin d k ++ bin
      = toLE 8 e ++ (padTrunc 32 sha ++ (toLE 8 bin.length
          ++ (sigBytes (ecSign d (digestScalar (fieldsBytes e sha bin.length ++ bin)) k)
              ++ bin))) := by
  simp [mkHeader, fieldsBytes, ENTRY_WIDTH, ID_WIDTH, LEN_WIDTH, List.append_assoc]

theorem hdrEntry_stamped (e : Nat) (sha bin : List Nat) (d k : Scalar) :
    hdrEntry (mkHeader e sha bin d k ++ bin) = fromLE (toLE 8 e) := by
  rw [hdrEntry, stamped_decomp, ENTRY_WIDTH, List.take_left' (toLE_length 8 e)]

theorem hdrId_stamped (e : Nat) (sha bin : List Nat) (d k : Scalar) :
    hdrId (mkHeader e sha bin d k ++ bin) = padTrunc 32 sha := by
  rw [hdrId, stamped_decomp, ENTRY_WIDTH, ID_WIDTH,
    List.drop_left' (toLE_length 8 e), List.take_append_of_le_length (by
      rw [padTrunc_length])]
  simp [padTrunc_length]

theorem hdrLenField_stamped (e : Nat) (sha bin : List Nat) (d k : Scalar) :
    hdrLenField (mkHeader e sha bin d k ++ bin) = fromLE (toLE 8 bin.length) := by
  have hd : mkHeader e sha bin d k ++ bin
      = (toLE 8 e ++ padTrunc 32 sha) ++ (toLE 8 bin.length
          ++ (sigBytes (ecSign d (digestScalar (fieldsBytes e sha bin.length ++ bin)) k)
              ++ bin)) := by
    rw [stamped_decomp]
    simp [List.append_assoc]
  have hlen : (toLE 8 e ++ padTrunc 32 sha).length = 40 := by
    simp [toLE_length, padTrunc_length]
  rw [hdrLenField, hd, List.drop_left' hlen, LEN_WIDTH,
    List.take_append_of_le_length (by rw [toLE_length]),
    List.take_of_length_le (by rw [toLE_length])]

theorem hdrSig_stamped (e : Nat) (sha bin : List Nat) (d k : Scalar) :
    hdrSig (mkHeader e sha bin d k ++ bin)
      = sigBytes (ecSign d (digestScalar (fieldsBytes e sha bin.length ++ bin)) k) := by
  have hd : mkHeader e sha bin d k ++ bin
      = fieldsBytes e sha bin.length
          ++ (sigBytes (ecSign d (digestScalar (fieldsBytes e sha bin.length ++ bin)) k)
              ++ bin) := by
    simp [mkHeader, List.append_assoc]
  rw [hdrSig, hd, List.drop_left' (fieldsBytes_length e sha bin.length), SIG_WIDTH,
    List.take_append_of_le_length (by rw [sigBytes_length])]
  simp [sigBytes_length]

theorem hdrPayload_stamped (e : Nat) (sha bin : List Nat) (d k : Scalar) :
    hdrPayload (mkHeader e sha bin d k ++ bin) = bin := by
  rw [hdrPayload, HEADER_LEN,
    List.drop_left' (by rw [← HEADER_LEN, mkHeader_length])]

theorem hdrFields_stamped (e : Nat) (sha bin : List Nat) (d k : Scalar) :
    (mkHeader e sha bin d k ++ bin).take 48 = fieldsBytes e sha bin.length := by
  have hd : mkHeader e sha bin d k ++ bin
      = fieldsBytes e sha bin.length
          ++ (sigBytes (ecSign d (digestScalar (fieldsBytes e sha bin.length ++ bin)) k)
              ++ bin) := by
    simp [mkHeader, List.append_assoc]
  rw [hd, List.take_left' (fieldsBytes_length e sha bin.length)]

theorem secpN_lt_pow32 : secpN < 256 ^ 32 := by decide

theorem sigScalars_sigBytes (rs : Scalar × Scalar) : sigScalars (sigBytes rs) = rs := by
  unfold sigScalars sigBytes
  rw [List.take_left' (toBE_length 32 rs.1.val), List.drop_left' (toBE_length 32 rs.1.val),
    fromBE_toBE 32 _ (Nat.lt_trans (ZMod.val_lt rs.1) secpN_lt_pow32),
    fromBE_toBE 32 _ (Nat.lt_trans (ZMod.val_lt rs.2) secpN_lt_pow32),
    ZMod.natCast_rightInverse rs.1, ZMod.natCast_rightInverse rs.2]

/-! ## Claims -/

/-- C1: for every valid invocation of the header stamper (input binary
exists and is non-empty, key parses, output writable), the produced
output file equals header_bytes ++ original_binary_bytes, the header has
the constant length HEADER_LEN independent of the payload, the output
length is HEADER_LEN plus the input length, and the suffix of the output
from offset HEADER_LEN is byte-for-byte the input binary. -/
theorem spec_C1 (a : StamperArgs) (k : Scalar) (bin : List Nat) (d : Scalar)
    (hbin : a.binary = some bin) (hne : bin ≠ [])
    (hkey : a.key = some d) (hw : a.outputWritable = true) :
    run_stamper a k = some (mkHeader a.entrypoint a.gitSha bin d k ++ bin)
    ∧ (mkHeader a.entrypoint a.gitSha bin d k).length = HEADER_LEN
    ∧ (mkHeader a.entrypoint a.gitSha bin d k ++ bin).length = HEADER_LEN + bin.length
    ∧ (mkHeader a.entrypoint a.gitSha bin d k ++ bin).drop HEADER_LEN = bin := by
  refine ⟨?_, mkHeader_length _ _ _ _ _, ?_, hdrPayload_stamped a.entrypoint a.gitSha bin d k⟩
  · unfold run_stamper patch_image_header
    rw [hbin, hkey, hw]
    simp
  · rw [List.length_append, mkHeader_length]

/-- Witness for C1 at a concrete invocation. -/
theorem spec_C1_witness :
    run_stamper ⟨some [1, 2, 3], 5, [97, 98, 99], some 2, true⟩ 1
      = some (mkHeader 5 [97, 98, 99] [1, 2, 3] 2 1 ++ [1, 2, 3])
    ∧ (mkHeader 5 [97, 98, 99] [1, 2, 3] 2 1).length = HEADER_LEN
    ∧ (mkHeader 5 [97, 98, 99] [1, 2, 3] 2 1 ++ [1, 2, 3]).length = HEADER_LEN + 3
    ∧ (mkHeader 5 [97, 98, 99] [1, 2, 3] 2 1 ++ [1, 2, 3]).drop HEADER_LEN = [1, 2, 3] :=
  spec_C1 ⟨some [1, 2, 3], 5, [97, 98, 99], some 2, true⟩ 1 [1, 2, 3] 2 rfl
    (by decide) rfl rfl

/-- C2: on failure no file is left at the output path: a missing input
binary yields InputNotFound and no output, an unparsable key yields
KeyLoadError and no output, an unwritable output path yields IOError
and no output. -/
theorem spec_C2 (a : StamperArgs) (k : Scalar) (bin : List Nat) (d : Scalar) :
    (a.binary = none →
      patch_image_header a k = .error .InputNotFound ∧ run_stamper a k = none)
    ∧ (a.binary = some bin → a.key = none →
      patch_image_header a k = .error .KeyLoadError ∧ run_stamper a k = none)
    ∧ (a.binary = some bin → a.key = some d → a.outputWritable = false →
      patch_image_header a k = .error .IOError ∧ run_stamper a k = none) := by
  refine ⟨fun h1 => ?_, fun h1 h2 => ?_, fun h1 h2 h3 => ?_⟩
  · unfold run_stamper patch_image_header
    rw [h1]
    exact ⟨rfl, rfl⟩
  · unfold run_stamper patch_image_header
    rw [h1, h2]
    exact ⟨rfl, rfl⟩
  · unfold run_stamper patch_image_header
    rw [h1, h2, h3]
    exact ⟨rfl, rfl⟩

/-- Witness for C2: each failure mode at a concrete invocation. -/
theorem spec_C2_witness :
    (patch_image_header ⟨none, 0, [], some 2, true⟩ 1 = .error .InputNotFound
      ∧ run_stamper ⟨none, 0, [], some 2, true⟩ 1 = none)
    ∧ (patch_image_header ⟨some [1], 0, [], none, true⟩ 1 = .error .KeyLoadError
      ∧ run_stamper ⟨some [1], 0, [], none, true⟩ 1 = none)
    ∧ (patch_image_header ⟨some [1], 0, [], some 2, false⟩ 1 = .error .IOError
      ∧ run_stamper ⟨some [1], 0, [], some 2, false⟩ 1 = none) :=
  ⟨(spec_C2 ⟨none, 0, [], some 2, true⟩ 1 [1] 2).1 rfl,
    (spec_C2 ⟨some [1], 0, [], none, true⟩ 1 [1] 2).2.1 rfl rfl,
    (spec_C2 ⟨some [1], 0, [], some 2, false⟩ 1 [1] 2).2.2 rfl rfl rfl⟩

/-- C3: for every run of the stamper on a binary, entry point,
identifier and key with a valid key, the signature stored in the
produced header verifies (ECDSA over secp256k1, as modelled) against
the public key derived from the supplied private key, over the
concatenation of the other header fields and the binary payload.  The
two gcd hypotheses state that the nonce and the produced s are
invertible modulo the group order, which ECDSA requires of a
well-formed signature. -/
theorem spec_C3 (a : StamperArgs) (k : Scalar) (bin : List Nat) (d : Scalar) (img : List Nat)
    (hbin : a.binary = some bin) (hkey : a.key = some d) (hw : a.outputWritable = true)
    (hk : Nat.gcd k.val secpN = 1)
    (hs : Nat.gcd ((ecSign d
        (digestScalar (fieldsBytes a.entrypoint a.gitSha bin.length ++ bin)) k).2).val
        secpN = 1)
    (himg : run_stamper a k = some img) :
    ecVerify (derivePub d) (digestScalar (img.take 48 ++ hdrPayload img))
      (sigScalars (hdrSig img)).1 (sigScalars (hdrSig img)).2 = true := by
  have hrun : run_stamper a k = some (mkHeader a.entrypoint a.gitSha bin d k ++ bin) := by
    unfold run_stamper patch_image_header
    rw [hbin, hkey, hw]
    simp
  rw [hrun] at himg
  have himg2 : img = mkHeader a.entrypoint a.gitSha bin d k ++ bin :=
    (Option.some.injEq _ _ ▸ himg).symm
  subst himg2
  rw [hdrSig_stamped, sigScalars_sigBytes, hdrFields_stamped, hdrPayload_stamped]
  exact ecVerify_ecSign d (digestScalar (fieldsBytes a.entrypoint a.gitSha bin.length ++ bin))
    k hk hs

set_option maxRecDepth 40000 in
/-- Witness for C3 at a concrete invocation with key 2 and nonce 1. -/
theorem spec_C3_witness :
    ecVerify (derivePub 2)
      (digestScalar ((mkHeader 5 [97, 98, 99] [1, 2, 3] 2 1 ++ [1, 2, 3]).take 48
        ++ hdrPayload (mkHeader 5 [97, 98, 99] [1, 2, 3] 2 1 ++ [1, 2, 3])))
      (sigScalars (hdrSig (mkHeader 5 [97, 98, 99] [1, 2, 3] 2 1 ++ [1, 2, 3]))).1
      (sigScalars (hdrSig (mkHeader 5 [97, 98, 99] [1, 2, 3] 2 1 ++ [1, 2, 3]))).2 = true :=
  spec_C3 ⟨some [1, 2, 3], 5, [97, 98, 99], some 2, true⟩ 1 [1, 2, 3] 2
    (mkHeader 5 [97, 98, 99] [1, 2, 3] 2 1 ++ [1, 2, 3]) rfl rfl rfl
    (by decide) (by decide) rfl

/-- C4: the first HEADER_LEN bytes of the output decode to exactly the
supplied entry point and the identifier padded or truncated to the
fixed field width; an oversize identifier is truncated, never a
failure; when the entry point is the one the build passes, the stamped
entry point is 0x40000000. -/
theorem spec_C4 (a : StamperArgs) (k : Scalar) (bin : List Nat) (d : Scalar) (img : List Nat)
    (hbin : a.binary = some bin) (hkey : a.key = some d) (hw : a.outputWritable = true)
    (he : a.entrypoint < 2 ^ 64)
    (himg : run_stamper a k = some img) :
    hdrEntry img = a.entrypoint
    ∧ hdrId img = padTrunc ID_WIDTH a.gitSha
    ∧ (ID_WIDTH ≤ a.gitSha.length → hdrId img = a.gitSha.take ID_WIDTH)
    ∧ stamper_exit a k = 0
    ∧ (a.entrypoint = BUILD_ENTRYPOINT → hdrEntry img = 0x40000000) := by
  have hrun : run_stamper a k = some (mkHeader a.entrypoint a.gitSha bin d k ++ bin) := by
    unfold run_stamper patch_image_header
    rw [hbin, hkey, hw]
    simp
  rw [hrun] at himg
  have himg2 : img = mkHeader a.entrypoint a.gitSha bin d k ++ bin :=
    (Option.some.injEq _ _ ▸ himg).symm
  subst himg2
  have hentry : hdrEntry (mkHeader a.entrypoint a.gitSha bin d k ++ bin) = a.entrypoint := by
    rw [hdrEntry_stamped, fromLE_toLE 8 a.entrypoint (by norm_num at he ⊢; exact he)]
  refine ⟨hentry, ?_, ?_, ?_, ?_⟩
  · rw [hdrId_stamped, ID_WIDTH]
  · intro hlong
    rw [hdrId_stamped, ID_WIDTH, padTrunc]
    rw [ID_WIDTH] at hlong
    have : 32 - a.gitSha.length = 0 := by omega
    rw [this]
    simp
  · unfold stamper_exit patch_image_header
    rw [hbin, hkey, hw]
    simp
  · intro hb
    rw [hentry, hb, BUILD_ENTRYPOINT]

/-- Witness for C4 at a concrete invocation with a 33-byte identifier,
exercising truncation, at the entry point used by the build. -/
theorem spec_C4_witness :
    hdrEntry (mkHeader 0x40000000 (List.replicate 33 7) [9] 2 1 ++ [9]) = 0x40000000
    ∧ hdrId (mkHeader 0x40000000 (List.replicate 33 7) [9] 2 1 ++ [9])
        = (List.replicate 33 7).take ID_WIDTH
    ∧ stamper_exit ⟨some [9], 0x40000000, List.replicate 33 7, some 2, true⟩ 1 = 0 := by
  have h := spec_C4 ⟨some [9], 0x40000000, List.replicate 33 7, some 2, true⟩ 1 [9] 2
    (mkHeader 0x40000000 (List.replicate 33 7) [9] 2 1 ++ [9]) rfl rfl rfl
    (by decide) rfl
  exact ⟨h.2.2.2.2 rfl, h.2.2.1 (by decide), h.2.2.2.1⟩

/-- C5: the stamper exits 0 exactly on success and nonzero on any
error; the build script prints a failure message and exits nonzero
whenever the firmware build or the stamping step fails, and exits 0
with a success message otherwise. -/
theorem spec_C5 (env : BuildEnv) (a : StamperArgs) (k : Scalar) :
    (stamper_exit a k = 0 ↔ ∃ out, patch_image_header a k = .ok out)
    ∧ (env.makeOk = false → build_sh env k = (1, "Build failed!"))
    ∧ (env.makeOk = true → stamper_exit (buildStampArgs env) k ≠ 0 →
        build_sh env k = (1, "Failed to generate fw_jump.img"))
    ∧ (env.makeOk = true → stamper_exit (buildStampArgs env) k = 0 →
        build_sh env k = (0, "Build completed successfully!")) := by
  refine ⟨?_, fun h1 => ?_, fun h1 h2 => ?_, fun h1 h2 => ?_⟩
  · unfold stamper_exit
    cases hp : patch_image_header a k with
    | ok out => exact ⟨fun _ => ⟨out, rfl⟩, fun _ => rfl⟩
    | error e => exact ⟨fun h => absurd h (by norm_num), fun ⟨out, h⟩ => absurd h (by simp)⟩
  · unfold build_sh
    rw [h1]
    rfl
  · unfold build_sh
    rw [h1]
    simp [h2]
  · unfold build_sh
    rw [h1]
    simp [h2]

/-- Witness for C5: success of the stamper, make failure, stamping
failure and full success at concrete environments. -/
theorem spec_C5_witness :
    stamper_exit ⟨some [1], 0, [], some 2, true⟩ 1 = 0
    ∧ build_sh ⟨false, none, some [1], some 2, true⟩ 1 = (1, "Build failed!")
    ∧ build_sh ⟨true, none, none, some 2, true⟩ 1 = (1, "Failed to generate fw_jump.img")
    ∧ build_sh ⟨true, none, some [1], some 2, true⟩ 1
        = (0, "Build completed successfully!") :=
  ⟨(spec_C5 ⟨false, none, some [1], some 2, true⟩ ⟨some [1], 0, [], some 2, true⟩ 1).1.mpr
      ⟨mkHeader 0 [] [1] 2 1 ++ [1], rfl⟩,
    (spec_C5 ⟨false, none, some [1], some 2, true⟩ ⟨some [1], 0, [], some 2, true⟩ 1).2.1 rfl,
    (spec_C5 ⟨true, none, none, some 2, true⟩ ⟨some [1], 0, [], some 2, true⟩ 1).2.2.1 rfl
      (by decide),
    (spec_C5 ⟨true, none, some [1], some 2, true⟩ ⟨some [1], 0, [], some 2, true⟩ 1).2.2.2 rfl
      (by decide)⟩

/-- C7 counterexample: two runs of the stamper on identical inputs
(binary, entry point, identifier, key) but with different signing
nonces produce different output files, so the stamper is not
deterministic as a function of its inputs alone. -/
theorem spec_C7_counterexample :
    run_stamper ⟨some [1], 0, [], some 2, true⟩ 1
      ≠ run_stamper ⟨some [1], 0, [], some 2, true⟩ 2 := by
  decide

/-- C7 amended: two runs with identical inputs produce outputs that
agree outside the signature field (same first 48 header bytes, same
payload suffix, same success or failure and same exit code); only the
signature bytes may differ between runs of the randomized scheme. -/
theorem spec_C7_amended (a : StamperArgs) (k1 k2 : Scalar) :
    (run_stamper a k1).map (fun l => l.take 48) = (run_stamper a k2).map (fun l => l.take 48)
    ∧ (run_stamper a k1).map (fun l => l.drop HEADER_LEN)
        = (run_stamper a k2).map (fun l => l.drop HEADER_LEN)
    ∧ (run_stamper a k1).isSome = (run_stamper a k2).isSome
    ∧ stamper_exit a k1 = stamper_exit a k2 := by
  obtain ⟨ob, e, sha, ok, ow⟩ := a
  cases ob with
  | none => exact ⟨rfl, rfl, rfl, rfl⟩
  | some bin =>
    cases ok with
    | none => exact ⟨rfl, rfl, rfl, rfl⟩
    | some d =>
      cases ow with
      | false => exact ⟨rfl, rfl, rfl, rfl⟩
      | true =>
        have e1 : run_stamper ⟨some bin, e, sha, some d, true⟩ k1
            = some (mkHeader e sha bin d k1 ++ bin) := rfl
        have e2 : run_stamper ⟨some bin, e, sha, some d, true⟩ k2
            = some (mkHeader e sha bin d k2 ++ bin) := rfl
        have x1 : stamper_exit ⟨some bin, e, sha, some d, true⟩ k1 = 0 := rfl
        have x2 : stamper_exit ⟨some bin, e, sha, some d, true⟩ k2 = 0 := rfl
        have h48 : (mkHeader e sha bin d k1 ++ bin).take 48
            = (mkHeader e sha bin d k2 ++ bin).take 48 := by
          rw [hdrFields_stamped, hdrFields_stamped]
        have hpay : (mkHeader e sha bin d k1 ++ bin).drop HEADER_LEN
            = (mkHeader e sha bin d k2 ++ bin).drop HEADER_LEN := by
          have h1 := hdrPayload_stamped e sha bin d k1
          have h2 := hdrPayload_stamped e sha bin d k2
          unfold hdrPayload at h1 h2
          rw [h1, h2]
        rw [e1, e2, x1, x2]
        refine ⟨congrArg some h48, congrArg some hpay, ?_, rfl⟩
        simp only [Option.isSome_some]

/-- C9: when git rev-parse fails, the build script substitutes the
literal "unknown" as the build identifier, does not fail, still invokes
the stamper, and the stamped header identifier field contains
"unknown" (zero-padded to the field width). -/
theorem spec_C9 (env : BuildEnv) (k : Scalar) (bin : List Nat) (d : Scalar)
    (hgit : env.gitShaOut = none) (hmake : env.makeOk = true)
    (hbin : env.fwJumpBin = some bin) (hkey : env.key = some d)
    (hw : env.outputWritable = true) :
    buildGitSha env = unknownBytes
    ∧ (build_sh env k).1 = 0
    ∧ build_output env k = some (mkHeader BUILD_ENTRYPOINT unknownBytes bin d k ++ bin)
    ∧ hdrId (mkHeader BUILD_ENTRYPOINT unknownBytes bin d k ++ bin)
        = unknownBytes ++ List.replicate 25 0 := by
  have hsha : buildGitSha env = unknownBytes := by
    unfold buildGitSha
    rw [hgit]
    rfl
  have hargs : buildStampArgs env
      = ⟨some bin, BUILD_ENTRYPOINT, unknownBytes, some d, true⟩ := by
    unfold buildStampArgs
    rw [hbin, hkey, hw, hsha]
  have hpatch : patch_image_header (buildStampArgs env) k
      = .ok (mkHeader BUILD_ENTRYPOINT unknownBytes bin d k ++ bin) := by
    rw [hargs]
    rfl
  refine ⟨hsha, ?_, ?_, ?_⟩
  · unfold build_sh stamper_exit
    rw [hmake, hpatch]
    rfl
  · unfold build_output run_stamper
    rw [hmake, hpatch]
    rfl
  · rw [hdrId_stamped]
    decide
/-- Witness for C9 at a concrete environment outside a git repository. -/
theorem spec_C9_witness :
    buildGitSha ⟨true, none, some [1], some 2, true⟩ = unknownBytes
    ∧ (build_sh ⟨true, none, some [1], some 2, true⟩ 1).1 = 0
    ∧ build_output ⟨true, none, some [1], some 2, true⟩ 1
        = some (mkHeader BUILD_ENTRYPOINT unknownBytes [1] 2 1 ++ [1])
    ∧ hdrId (mkHeader BUILD_ENTRYPOINT unknownBytes [1] 2 1 ++ [1])
        = unknownBytes ++ List.replicate 25 0 :=
  spec_C9 ⟨true, none, some [1], some 2, true⟩ 1 [1] 2 rfl rfl rfl rfl rfl

/-- C10: the entry point stamped into the image header by the build
script is 0x40000000, while the firmware jump address configured for
AX65 builds is FW_JUMP_ADDR = 0x42000000; the header entrypoint field
does not match the address the firmware is built to run at. -/
theorem spec_C10 (env : BuildEnv) (k : Scalar) (bin : List Nat) (d : Scalar) (img : List Nat)
    (hmake : env.makeOk = true) (hbin : env.fwJumpBin = some bin)
    (hkey : env.key = some d) (hw : env.outputWritable = true)
    (himg : build_output env k = some img) :
    hdrEntry img = BUILD_ENTRYPOINT
    ∧ BUILD_ENTRYPOINT = 0x40000000
    ∧ FW_JUMP_ADDR = 0x42000000
    ∧ hdrEntry img ≠ FW_JUMP_ADDR := by
  have hrun : build_output env k
      = some (mkHeader BUILD_ENTRYPOINT (buildGitSha env) bin d k ++ bin) := by
    unfold build_output run_stamper patch_image_header buildStampArgs
    rw [hmake, hbin, hkey, hw]
    simp
  rw [hrun] at himg
  have himg2 : img = mkHeader BUILD_ENTRYPOINT (buildGitSha env) bin d k ++ bin :=
    (Option.some.injEq _ _ ▸ himg).symm
  subst himg2
  have hentry : hdrEntry (mkHeader BUILD_ENTRYPOINT (buildGitSha env) bin d k ++ bin)
      = BUILD_ENTRYPOINT := by
    rw [hdrEntry_stamped, fromLE_toLE 8 BUILD_ENTRYPOINT (by decide)]
  refine ⟨hentry, rfl, rfl, ?_⟩
  rw [hentry]
  decide

/-- Witness for C10 at a concrete environment. -/
theorem spec_C10_witness :
    hdrEntry (mkHeader BUILD_ENTRYPOINT (buildGitSha ⟨true, some [97], some [1], some 2, true⟩)
        [1] 2 1 ++ [1]) = BUILD_ENTRYPOINT
    ∧ BUILD_ENTRYPOINT = 0x40000000
    ∧ FW_JUMP_ADDR = 0x42000000
    ∧ hdrEntry (mkHeader BUILD_ENTRYPOINT
        (buildGitSha ⟨true, some [97], some [1], some 2, true⟩) [1] 2 1 ++ [1])
        ≠ FW_JUMP_ADDR :=
  spec_C10 ⟨true, some [97], some [1], some 2, true⟩ 1 [1] 2
    (mkHeader BUILD_ENTRYPOINT (buildGitSha ⟨true, some [97], some [1], some 2, true⟩)
      [1] 2 1 ++ [1]) rfl rfl rfl rfl rfl

/-- C6: the key-generation step pipes the secp256k1 private key through
openssl and derives the raw public key by stripping a fixed 24-byte
prefix from the DER-encoded public key with dd, yielding exactly 64
bytes, the two 32-byte big-endian coordinates. -/
theorem spec_C6 (x y : List Nat) (hx : x.length = 32) (hy : y.length = 32) :
    dd_skip24_count64 (derEncodePub x y) = x ++ y
    ∧ (dd_skip24_count64 (derEncodePub x y)).length = 64
    ∧ (derEncodePub x y).length = 88
    ∧ generateKeyCurve = "secp256k1" := by
  have hxy : (x ++ y).length = 64 := by
    rw [List.length_append, hx, hy]
  have hd : derEncodePub x y = (derHeadBytes ++ [4]) ++ (x ++ y) := by
    simp [derEncodePub, List.append_assoc]
  have hpre : (derHeadBytes ++ [4] : List Nat).length = 24 := by decide
  have hext : dd_skip24_count64 (derEncodePub x y) = x ++ y := by
    rw [dd_skip24_count64, hd, List.drop_left' hpre, List.take_of_length_le (by omega)]
  refine ⟨hext, ?_, ?_, rfl⟩
  · rw [hext, hxy]
  · rw [hd, List.length_append, hpre, hxy]

/-- Witness for C6 at concrete 32-byte coordinates. -/
theorem spec_C6_witness :
    dd_skip24_count64 (derEncodePub (List.replicate 32 1) (List.replicate 32 2))
        = List.replicate 32 1 ++ List.replicate 32 2
    ∧ (dd_skip24_count64 (derEncodePub (List.replicate 32 1) (List.replicate 32 2))).length = 64
    ∧ (derEncodePub (List.replicate 32 1) (List.replicate 32 2)).length = 88
    ∧ generateKeyCurve = "secp256k1" :=
  spec_C6 (List.replicate 32 1) (List.replicate 32 2) (by decide) (by decide)

/-- C8: the AX65 final-init override writes the machine-mode cache
control CSR only on cold boot, and that write is a read-modify-write
setting exactly the CCTL_SUEN bit of MCACHE_CTL while leaving every
other bit of that CSR, and every other CSR, unchanged; on warm boot no
CSR is written; in both cases the function returns the result of
generic_final_init applied to cold_boot. -/
theorem spec_C8 (gfi : Bool → Int) (cold : Bool) (s : MachineState) (addr i : Nat)
    (hi : i ≠ 8) :
    ((ax65_final_init gfi cold s).2 = gfi cold)
    ∧ ((ax65_final_init gfi false s).1.csr addr = s.csr addr)
    ∧ ((ax65_final_init gfi true s).1.csr CSR_MCACHE_CTL
        = s.csr CSR_MCACHE_CTL ||| MCACHE_CTL_CCTL_SUEN_MASK)
    ∧ (addr ≠ CSR_MCACHE_CTL → (ax65_final_init gfi true s).1.csr addr = s.csr addr)
    ∧ Nat.testBit ((ax65_final_init gfi true s).1.csr CSR_MCACHE_CTL) 8 = true
    ∧ Nat.testBit ((ax65_final_init gfi true s).1.csr CSR_MCACHE_CTL) i
        = Nat.testBit (s.csr CSR_MCACHE_CTL) i := by
  have hwr : (ax65_final_init gfi true s).1.csr CSR_MCACHE_CTL
      = s.csr CSR_MCACHE_CTL ||| MCACHE_CTL_CCTL_SUEN_MASK := by
    simp [ax65_final_init, csr_write, csr_read]
  refine ⟨rfl, rfl, hwr, fun ha => ?_, ?_, ?_⟩
  · simp [ax65_final_init, csr_write, csr_read, ha]
  · rw [hwr, Nat.testBit_or, MCACHE_CTL_CCTL_SUEN_MASK,
      Nat.testBit_two_pow_self, Bool.or_true]
  · rw [hwr, Nat.testBit_or, MCACHE_CTL_CCTL_SUEN_MASK,
      Nat.testBit_two_pow_of_ne (Ne.symm hi), Bool.or_false]

/-- Witness for C8 at a concrete state, result function, CSR address
and bit index. -/
theorem spec_C8_witness :
    ((ax65_final_init (fun _ => 7) true ⟨fun _ => 0⟩).2 = 7)
    ∧ ((ax65_final_init (fun _ => 7) false ⟨fun _ => 0⟩).1.csr 0 = 0)
    ∧ ((ax65_final_init (fun _ => 7) true ⟨fun _ => 0⟩).1.csr CSR_MCACHE_CTL
        = 0 ||| MCACHE_CTL_CCTL_SUEN_MASK)
    ∧ ((ax65_final_init (fun _ => 7) true ⟨fun _ => 0⟩).1.csr 0 = 0)
    ∧ Nat.testBit ((ax65_final_init (fun _ => 7) true ⟨fun _ => 0⟩).1.csr CSR_MCACHE_CTL) 8
        = true
    ∧ Nat.testBit ((ax65_final_init (fun _ => 7) true ⟨fun _ => 0⟩).1.csr CSR_MCACHE_CTL) 3
        = Nat.testBit 0 3 := by
  have h := spec_C8 (fun _ => 7) true ⟨fun _ => 0⟩ 0 3 (by decide)
  exact ⟨h.1, h.2.1, h.2.2.1, h.2.2.2.1 (by decide), h.2.2.2.2.1, h.2.2.2.2.2⟩
